import Mathlib

/-!
# Verification of the go-shp shapefile geometry codec

A shallow embedding of `shapefile.go` (package `goshp`): the `Box` bounding-box
value type, the geometry variants (`Null`, `Point`, `PolyLine`, `Polygon`) with
their little-endian binary `read`/`write` methods, and the DBF `Field`
descriptor constructors.

Modelling conventions:

* `float64` values play two distinct roles in the source and are embedded
  accordingly.
  - In the binary codec the source only moves the 64-bit patterns of floats
    (`binary.Read`/`binary.Write` copy `math.Float64bits` little-endian),
    so wire-model coordinates (`WPoint`, `WBox`, ...) are the bit patterns,
    `Nat` values below `2^64`, serialized as 8 little-endian bytes.
  - In the bounding-box arithmetic (`Box.Extend`, `BBoxFromPoints`, `BBox`)
    the source only compares coordinates with `<` and `>`.  Value-model
    coordinates are `Int`, a faithful model of the linear order of the
    non-NaN doubles; IEEE NaN behaviour is outside this embedding.
* A byte stream (`io.Reader` contents) is a `List Nat` of bytes.
  `binary.Read(r, LittleEndian, &x)` performs `io.ReadFull` into a buffer of
  the exact field size and decodes only on success; on a short source it
  consumes every remaining byte, reports an error, and leaves the destination
  untouched.  `readFull`/`readField` below model exactly that.  The source
  discards every error `binary.Read`/`binary.Write` returns, so the embedded
  `read` operations return the (possibly partially updated) receiver rather
  than an error.
* `make([]T, n)` panics for negative `n`; `PolyLine.read`/`Polygon.read`
  model this one abnormal exit as `Option.none`.  Every other path returns
  `some`.
-/

/-! ## Value model: Box, Point, and bounding-box arithmetic -/

/-- `Box` from the source: four coordinates representing a bounding box.
Coordinates are modelled as `Int` (the order structure of non-NaN doubles). -/
structure Box where
  MinX : Int
  MinY : Int
  MaxX : Int
  MaxY : Int
deriving DecidableEq, Repr

/-- `func (b *Box) Extend(box Box)` from the source: widens each bound of the
receiver `b` to cover `box`.  The four `if` statements update independent
fields, so the in-place mutation is modelled as returning the updated box. -/
def Box.Extend (b : Box) (box : Box) : Box :=
  { MinX := if box.MinX < b.MinX then box.MinX else b.MinX
    MinY := if box.MinY < b.MinY then box.MinY else b.MinY
    MaxX := if box.MaxX > b.MaxX then box.MaxX else b.MaxX
    MaxY := if box.MaxY > b.MaxY then box.MaxY else b.MaxY }

/-- `Point` from the source. -/
structure Point where
  X : Int
  Y : Int
deriving DecidableEq, Repr

/-- `func (p Point) BBox() Box` from the source. -/
def Point.BBox (p : Point) : Box :=
  Box.mk p.X p.Y p.X p.Y

/-- One iteration of the `k ≠ 0` branch of the loop in `BBoxFromPoints`:
relax each bound of `box` to cover the point `p`. -/
def bboxStep (box : Box) (p : Point) : Box :=
  { MinX := if p.X < box.MinX then p.X else box.MinX
    MinY := if p.Y < box.MinY then p.Y else box.MinY
    MaxX := if p.X > box.MaxX then p.X else box.MaxX
    MaxY := if p.Y > box.MaxY then p.Y else box.MaxY }

/-- `func BBoxFromPoints(points []Point) (box Box)` from the source: the
`k == 0` iteration seeds the box from the first point, every later iteration
runs `bboxStep`; with no points the named return value keeps its zero value. -/
def BBoxFromPoints : List Point → Box
  | [] => Box.mk 0 0 0 0
  | p :: ps => ps.foldl bboxStep (Box.mk p.X p.Y p.X p.Y)

/-- `b` covers the point `p`: `p` lies within all four bounds. -/
def covers (b : Box) (p : Point) : Prop :=
  b.MinX ≤ p.X ∧ b.MinY ≤ p.Y ∧ p.X ≤ b.MaxX ∧ p.Y ≤ b.MaxY

/-- Alias for `Box`, needed because the embedded field of `PolyLine` and
`Polygon` is itself named `Box` as in the source. -/
abbrev BoxData := Box

/-- `PolyLine` from the source (value model): an embedded `Box` plus counts,
part offsets and points. -/
structure PolyLine where
  Box : BoxData
  NumParts : Int
  NumPoints : Int
  Parts : List Int
  Points : List Point
deriving DecidableEq, Repr

/-- `func (p PolyLine) BBox() Box` from the source: recomputed from `Points`,
not read from the stored `Box` field. -/
def PolyLine.BBox (p : PolyLine) : BoxData :=
  BBoxFromPoints p.Points

/-- `type Polygon PolyLine` from the source: a distinct named type with the
identical field layout. -/
structure Polygon where
  Box : BoxData
  NumParts : Int
  NumPoints : Int
  Parts : List Int
  Points : List Point
deriving DecidableEq, Repr

/-- `func (p Polygon) BBox() Box` from the source. -/
def Polygon.BBox (p : Polygon) : BoxData :=
  BBoxFromPoints p.Points

/-! ## Lemmas about the bounding-box fold -/

lemma bboxStep_widens (b : Box) (p : Point) :
    (bboxStep b p).MinX ≤ b.MinX ∧ (bboxStep b p).MinY ≤ b.MinY ∧
    b.MaxX ≤ (bboxStep b p).MaxX ∧ b.MaxY ≤ (bboxStep b p).MaxY := by
  simp only [bboxStep]
  refine ⟨?_, ?_, ?_, ?_⟩ <;> split <;> omega

lemma bboxStep_covers (b : Box) (p : Point) : covers (bboxStep b p) p := by
  simp only [bboxStep, covers]
  refine ⟨?_, ?_, ?_, ?_⟩ <;> split <;> omega

lemma foldl_bboxStep_widens :
    ∀ (ps : List Point) (b : Box),
      (ps.foldl bboxStep b).MinX ≤ b.MinX ∧ (ps.foldl bboxStep b).MinY ≤ b.MinY ∧
      b.MaxX ≤ (ps.foldl bboxStep b).MaxX ∧ b.MaxY ≤ (ps.foldl bboxStep b).MaxY := by
  intro ps
  induction ps with
  | nil => intro b; simp
  | cons q qs ih =>
    intro b
    simp only [List.foldl_cons]
    have h1 := bboxStep_widens b q
    have h2 := ih (bboxStep b q)
    exact ⟨le_trans h2.1 h1.1, le_trans h2.2.1 h1.2.1,
           le_trans h1.2.2.1 h2.2.2.1, le_trans h1.2.2.2 h2.2.2.2⟩

lemma foldl_bboxStep_covers :
    ∀ (ps : List Point) (b : Box) (p : Point), p ∈ ps →
      covers (ps.foldl bboxStep b) p := by
  intro ps
  induction ps with
  | nil => intro b p hp; cases hp
  | cons q qs ih =>
    intro b p hp
    simp only [List.foldl_cons]
    rcases List.mem_cons.mp hp with rfl | hmem
    · have h1 := bboxStep_covers b p
      have h2 := foldl_bboxStep_widens qs (bboxStep b p)
      simp only [covers] at h1 ⊢
      exact ⟨le_trans h2.1 h1.1, le_trans h2.2.1 h1.2.1,
             le_trans h1.2.2.1 h2.2.2.1, le_trans h1.2.2.2 h2.2.2.2⟩
    · exact ih (bboxStep b q) p hmem

lemma foldl_bboxStep_minimal :
    ∀ (ps : List Point) (b c : Box),
      (∀ p ∈ ps, covers c p) →
      c.MinX ≤ b.MinX → c.MinY ≤ b.MinY → b.MaxX ≤ c.MaxX → b.MaxY ≤ c.MaxY →
      c.MinX ≤ (ps.foldl bboxStep b).MinX ∧ c.MinY ≤ (ps.foldl bboxStep b).MinY ∧
      (ps.foldl bboxStep b).MaxX ≤ c.MaxX ∧ (ps.foldl bboxStep b).MaxY ≤ c.MaxY := by
  intro ps
  induction ps with
  | nil => intro b c _ h1 h2 h3 h4; exact ⟨h1, h2, h3, h4⟩
  | cons q qs ih =>
    intro b c hc h1 h2 h3 h4
    have hq : covers c q := hc q (List.mem_cons_self q qs)
    simp only [covers] at hq
    simp only [List.foldl_cons]
    refine ih (bboxStep b q) c (fun p hp => hc p (List.mem_cons_of_mem q hp)) ?_ ?_ ?_ ?_ <;>
      simp only [bboxStep] <;> split <;> omega

/-! ## Wire model: byte streams and `binary.Read`/`binary.Write` semantics -/

/-- `n` little-endian bytes of the value `v` (the low `8 * n` bits). -/
def bytesLE : Nat → Nat → List Nat
  | 0, _ => []
  | n + 1, v => v % 256 :: bytesLE n (v / 256)

/-- Value of a little-endian byte list. -/
def natFromLE : List Nat → Nat
  | [] => 0
  | b :: bs => b + 256 * natFromLE bs

/-- Little-endian bytes of a `float64`, which the codec treats as its 64-bit
pattern (`math.Float64bits`). -/
def encodeF64 (v : Nat) : List Nat := bytesLE 8 v

/-- Little-endian bytes of an `int32` (two's complement). -/
def encodeInt32 (v : Int) : List Nat := bytesLE 4 (v % 4294967296).toNat

/-- Decode 4 little-endian bytes as a two's-complement `int32`. -/
def decodeInt32 (bs : List Nat) : Int :=
  let n := natFromLE bs
  if n < 2147483648 then (n : Int) else (n : Int) - 4294967296

/-- `io.ReadFull` into a buffer of size `n`: on success the bytes and the rest
of the source; on a short source it consumes every remaining byte and fails. -/
def readFull (n : Nat) (s : List Nat) : Option (List Nat) × List Nat :=
  if n ≤ s.length then (some (s.take n), s.drop n) else (none, [])

/-- `binary.Read` of one fixed-size destination: read exactly `n` bytes and
decode them with `dec`; on failure the destination keeps its current value
`cur` and the error is discarded by the caller. -/
def readField {α : Type} (n : Nat) (dec : List Nat → α) (cur : α) (s : List Nat) :
    α × List Nat :=
  match readFull n s with
  | (some bs, rest) => (dec bs, rest)
  | (none, rest) => (cur, rest)

/-- Wire-model `Point`: coordinates are 64-bit float patterns. -/
structure WPoint where
  X : Nat
  Y : Nat
deriving DecidableEq, Repr

/-- Wire-model `Box`: coordinates are 64-bit float patterns. -/
structure WBox where
  MinX : Nat
  MinY : Nat
  MaxX : Nat
  MaxY : Nat
deriving DecidableEq, Repr

/-- Wire-model `PolyLine`. -/
structure WPolyLine where
  Box : WBox
  NumParts : Int
  NumPoints : Int
  Parts : List Int
  Points : List WPoint
deriving DecidableEq, Repr

/-- Wire-model `Polygon` (`type Polygon PolyLine`): distinct type, same fields. -/
structure WPolygon where
  Box : WBox
  NumParts : Int
  NumPoints : Int
  Parts : List Int
  Points : List WPoint
deriving DecidableEq, Repr

/-- Wire-model `Null`: the empty marker geometry, zero bytes on the wire. -/
structure WNull where
deriving DecidableEq, Repr

/-- `binary.Write` of a `Point` (`Point.write`): X then Y, little-endian. -/
def WPoint.write (p : WPoint) : List Nat :=
  encodeF64 p.X ++ encodeF64 p.Y

/-- `binary.Write` of a `Box`: the four coordinates in field order. -/
def WBox.write (b : WBox) : List Nat :=
  encodeF64 b.MinX ++ encodeF64 b.MinY ++ encodeF64 b.MaxX ++ encodeF64 b.MaxY

/-- `func (p *PolyLine) write(file io.Writer)` from the source: Box, NumParts,
NumPoints, Parts, Points, each little-endian, errors discarded. -/
def WPolyLine.write (p : WPolyLine) : List Nat :=
  WBox.write p.Box ++ encodeInt32 p.NumParts ++ encodeInt32 p.NumPoints ++
    List.flatten (p.Parts.map encodeInt32) ++ List.flatten (p.Points.map WPoint.write)

/-- `func (p *Polygon) write(file io.Writer)` from the source: same body as
`PolyLine.write`, duplicated in the source for the distinct type. -/
def WPolygon.write (p : WPolygon) : List Nat :=
  WBox.write p.Box ++ encodeInt32 p.NumParts ++ encodeInt32 p.NumPoints ++
    List.flatten (p.Parts.map encodeInt32) ++ List.flatten (p.Points.map WPoint.write)

/-- `func (n *Null) write(file io.Writer)`: a `Null` has size zero, so
`binary.Write` emits no bytes. -/
def WNull.write (_ : WNull) : List Nat := []

/-- Decode an exactly-16-byte buffer as a `Point`. -/
def decodeWPoint (bs : List Nat) : WPoint :=
  WPoint.mk (natFromLE (bs.take 8)) (natFromLE ((bs.drop 8).take 8))

/-- Decode an exactly-32-byte buffer as a `Box`. -/
def decodeWBox (bs : List Nat) : WBox :=
  WBox.mk (natFromLE (bs.take 8)) (natFromLE ((bs.drop 8).take 8))
    (natFromLE ((bs.drop 16).take 8)) (natFromLE ((bs.drop 24).take 8))

/-- Decode a buffer as `n` consecutive `int32` values (`binary.Read` into an
`[]int32` of length `n`; the buffer has length `4 * n` when called). -/
def decodeInt32s : Nat → List Nat → List Int
  | 0, _ => []
  | n + 1, bs => decodeInt32 (bs.take 4) :: decodeInt32s n (bs.drop 4)

/-- Decode a buffer as `n` consecutive `Point` values (`binary.Read` into a
`[]Point` of length `n`; the buffer has length `16 * n` when called). -/
def decodeWPoints : Nat → List Nat → List WPoint
  | 0, _ => []
  | n + 1, bs => decodeWPoint (bs.take 16) :: decodeWPoints n (bs.drop 16)

/-- `func (p *PolyLine) read(file io.Reader)` from the source: reads Box,
NumParts, NumPoints, allocates `Parts`/`Points` with `make` to the decoded
counts (zero-filled), then reads the arrays; every `binary.Read` error is
discarded, so a failed field read leaves that field's current value.  `make`
with a negative count panics, modelled as `none`. -/
def WPolyLine.read (p : WPolyLine) (s : List Nat) : Option (WPolyLine × List Nat) :=
  let r1 := readField 32 decodeWBox p.Box s
  let r2 := readField 4 decodeInt32 p.NumParts r1.2
  let r3 := readField 4 decodeInt32 p.NumPoints r2.2
  if r2.1 < 0 ∨ r3.1 < 0 then none
  else
    let parts0 : List Int := List.replicate r2.1.toNat 0
    let points0 : List WPoint := List.replicate r3.1.toNat (WPoint.mk 0 0)
    let r4 := readField (4 * r2.1.toNat) (decodeInt32s r2.1.toNat) parts0 r3.2
    let r5 := readField (16 * r3.1.toNat) (decodeWPoints r3.1.toNat) points0 r4.2
    some (WPolyLine.mk r1.1 r2.1 r3.1 r4.1 r5.1, r5.2)

/-- `func (p *Polygon) read(file io.Reader)` from the source: same body as
`PolyLine.read`, duplicated in the source for the distinct type. -/
def WPolygon.read (p : WPolygon) (s : List Nat) : Option (WPolygon × List Nat) :=
  let r1 := readField 32 decodeWBox p.Box s
  let r2 := readField 4 decodeInt32 p.NumParts r1.2
  let r3 := readField 4 decodeInt32 p.NumPoints r2.2
  if r2.1 < 0 ∨ r3.1 < 0 then none
  else
    let parts0 : List Int := List.replicate r2.1.toNat 0
    let points0 : List WPoint := List.replicate r3.1.toNat (WPoint.mk 0 0)
    let r4 := readField (4 * r2.1.toNat) (decodeInt32s r2.1.toNat) parts0 r3.2
    let r5 := readField (16 * r3.1.toNat) (decodeWPoints r3.1.toNat) points0 r4.2
    some (WPolygon.mk r1.1 r2.1 r3.1 r4.1 r5.1, r5.2)

/-- `func (p *Point) read(file io.Reader)` from the source: one `binary.Read`
of the 16-byte struct; on failure the receiver is untouched and the error is
discarded.  This read never panics, so no `Option` is needed. -/
def WPoint.read (p : WPoint) (s : List Nat) : WPoint × List Nat :=
  readField 16 decodeWPoint p s

/-- `func (n *Null) read(file io.Reader)`: `binary.Read` of a zero-size
struct reads no bytes and always succeeds. -/
def WNull.read (s : List Nat) : WNull × List Nat :=
  (WNull.mk, s)

/-- The zero value of `Point` (`var p Point`). -/
def zeroWPoint : WPoint := WPoint.mk 0 0

/-- The zero value of `PolyLine` (`var p PolyLine`): in Go, zero-valued
numeric fields and nil slices (which `binary.Write`/`len` treat as empty). -/
def zeroWPolyLine : WPolyLine := WPolyLine.mk (WBox.mk 0 0 0 0) 0 0 [] []

/-- The zero value of `Polygon`. -/
def zeroWPolygon : WPolygon := WPolygon.mk (WBox.mk 0 0 0 0) 0 0 [] []

/-- A `WPolyLine` is a valid in-memory value: every float pattern fits in 64
bits, the counts are in `int32` range and equal the slice lengths (the claimed
validity invariant), and every `Parts` entry is in `int32` range. -/
def ValidWPolyLine (p : WPolyLine) : Prop :=
  p.Box.MinX < 2 ^ 64 ∧ p.Box.MinY < 2 ^ 64 ∧ p.Box.MaxX < 2 ^ 64 ∧ p.Box.MaxY < 2 ^ 64 ∧
  p.NumParts < 2147483648 ∧ p.NumPoints < 2147483648 ∧
  (p.Parts.length : Int) = p.NumParts ∧ (p.Points.length : Int) = p.NumPoints ∧
  (∀ v ∈ p.Parts, -2147483648 ≤ v ∧ v < 2147483648) ∧
  (∀ q ∈ p.Points, q.X < 2 ^ 64 ∧ q.Y < 2 ^ 64)

/-- A `WPolygon` is a valid in-memory value (same conditions). -/
def ValidWPolygon (p : WPolygon) : Prop :=
  p.Box.MinX < 2 ^ 64 ∧ p.Box.MinY < 2 ^ 64 ∧ p.Box.MaxX < 2 ^ 64 ∧ p.Box.MaxY < 2 ^ 64 ∧
  p.NumParts < 2147483648 ∧ p.NumPoints < 2147483648 ∧
  (p.Parts.length : Int) = p.NumParts ∧ (p.Points.length : Int) = p.NumPoints ∧
  (∀ v ∈ p.Parts, -2147483648 ≤ v ∧ v < 2147483648) ∧
  (∀ q ∈ p.Points, q.X < 2 ^ 64 ∧ q.Y < 2 ^ 64)

/-! ## Lemmas about the byte-level primitives -/

lemma bytesLE_length : ∀ (n v : Nat), (bytesLE n v).length = n := by
  intro n
  induction n with
  | zero => intro v; rfl
  | succ k ih => intro v; simp [bytesLE, ih]

lemma natFromLE_bytesLE : ∀ (n v : Nat), natFromLE (bytesLE n v) = v % 256 ^ n := by
  intro n
  induction n with
  | zero => intro v; simp [bytesLE, natFromLE, Nat.mod_one]
  | succ k ih =>
    intro v
    simp only [bytesLE, natFromLE, ih]
    rw [pow_succ', Nat.mod_mul]

lemma natFromLE_bytesLE_of_lt {n v : Nat} (h : v < 256 ^ n) :
    natFromLE (bytesLE n v) = v := by
  rw [natFromLE_bytesLE, Nat.mod_eq_of_lt h]

lemma encodeF64_length (v : Nat) : (encodeF64 v).length = 8 := bytesLE_length 8 v

lemma natFromLE_encodeF64 {v : Nat} (h : v < 2 ^ 64) : natFromLE (encodeF64 v) = v := by
  apply natFromLE_bytesLE_of_lt
  norm_num at h ⊢
  omega

lemma encodeInt32_length (v : Int) : (encodeInt32 v).length = 4 := bytesLE_length 4 _

lemma decodeInt32_encodeInt32 {v : Int} (h1 : -2147483648 ≤ v) (h2 : v < 2147483648) :
    decodeInt32 (encodeInt32 v) = v := by
  have hlt : (v % 4294967296).toNat < 256 ^ 4 := by norm_num; omega
  simp only [decodeInt32, encodeInt32, natFromLE_bytesLE_of_lt hlt]
  split <;> omega

lemma readFull_append {n : Nat} (a r : List Nat) (h : a.length = n) :
    readFull n (a ++ r) = (some a, r) := by
  have hle : n ≤ (a ++ r).length := by simp [List.length_append]; omega
  simp only [readFull, if_pos hle, List.take_left' h, List.drop_left' h]

lemma readFull_short {n : Nat} (s : List Nat) (h : s.length < n) :
    readFull n s = (none, []) := by
  have hn : ¬ n ≤ s.length := by omega
  simp only [readFull, if_neg hn]

lemma readField_append {α : Type} {n : Nat} (dec : List Nat → α) (cur : α)
    (a r : List Nat) (h : a.length = n) :
    readField n dec cur (a ++ r) = (dec a, r) := by
  simp only [readField, readFull_append a r h]

lemma readField_short {α : Type} {n : Nat} (dec : List Nat → α) (cur : α)
    (s : List Nat) (h : s.length < n) :
    readField n dec cur s = (cur, []) := by
  simp only [readField, readFull_short s h]

lemma readFull_exact {n : Nat} (s : List Nat) (h : s.length = n) :
    readFull n s = (some s, s.drop n) := by
  simp only [readFull, if_pos (le_of_eq h.symm)]
  rw [← h, List.take_length]

lemma readField_exact {α : Type} {n : Nat} (dec : List Nat → α) (cur : α)
    (s : List Nat) (h : s.length = n) :
    readField n dec cur s = (dec s, []) := by
  simp only [readField, readFull_exact s h]
  rw [← h, List.drop_length]

lemma decodeWPoint_write {q : WPoint} (hx : q.X < 2 ^ 64) (hy : q.Y < 2 ^ 64) :
    decodeWPoint (WPoint.write q) = q := by
  have h8 : (encodeF64 q.X).length = 8 := encodeF64_length _
  simp only [decodeWPoint, WPoint.write, List.take_left' h8, List.drop_left' h8]
  rw [List.take_of_length_le (by rw [encodeF64_length]),
      natFromLE_encodeF64 hx, natFromLE_encodeF64 hy]

lemma WPoint_write_length (q : WPoint) : (WPoint.write q).length = 16 := by
  simp [WPoint.write, encodeF64_length]

lemma decodeWBox_write {b : WBox} (h1 : b.MinX < 2 ^ 64) (h2 : b.MinY < 2 ^ 64)
    (h3 : b.MaxX < 2 ^ 64) (h4 : b.MaxY < 2 ^ 64) :
    decodeWBox (WBox.write b) = b := by
  have e8 : ∀ v : Nat, (encodeF64 v).length = 8 := encodeF64_length
  have e16 : (encodeF64 b.MinX ++ encodeF64 b.MinY).length = 16 := by
    simp [List.length_append, e8]
  have e24 : (encodeF64 b.MinX ++ encodeF64 b.MinY ++ encodeF64 b.MaxX).length = 24 := by
    simp [List.length_append, e8]
  have hw :
      WBox.write b
        = encodeF64 b.MinX ++ (encodeF64 b.MinY ++ (encodeF64 b.MaxX ++ encodeF64 b.MaxY)) := by
    simp [WBox.write, List.append_assoc]
  have hd8 : (WBox.write b).drop 8 = encodeF64 b.MinY ++ (encodeF64 b.MaxX ++ encodeF64 b.MaxY) := by
    rw [hw, List.drop_left' (e8 _)]
  have hd16 : (WBox.write b).drop 16 = encodeF64 b.MaxX ++ encodeF64 b.MaxY := by
    rw [show (16 : Nat) = 8 + 8 by norm_num, ← List.drop_drop, hd8, List.drop_left' (e8 _)]
  have hd24 : (WBox.write b).drop 24 = encodeF64 b.MaxY := by
    rw [show (24 : Nat) = 16 + 8 by norm_num, ← List.drop_drop, hd16, List.drop_left' (e8 _)]
  have ht : (WBox.write b).take 8 = encodeF64 b.MinX := by
    rw [hw, List.take_left' (e8 _)]
  simp only [decodeWBox, ht, hd8, hd16, hd24, List.take_left' (e8 _),
    List.take_of_length_le (le_of_eq (e8 _)), natFromLE_encodeF64 h1,
    natFromLE_encodeF64 h2, natFromLE_encodeF64 h3, natFromLE_encodeF64 h4]

lemma WBox_write_length (b : WBox) : (WBox.write b).length = 32 := by
  simp [WBox.write, encodeF64_length]

lemma decodeInt32s_length : ∀ (n : Nat) (bs : List Nat), (decodeInt32s n bs).length = n := by
  intro n
  induction n with
  | zero => intro bs; rfl
  | succ k ih => intro bs; simp [decodeInt32s, ih]

lemma decodeWPoints_length : ∀ (n : Nat) (bs : List Nat), (decodeWPoints n bs).length = n := by
  intro n
  induction n with
  | zero => intro bs; rfl
  | succ k ih => intro bs; simp [decodeWPoints, ih]

lemma flatten_encodeInt32_length (l : List Int) :
    ((l.map encodeInt32).flatten).length = 4 * l.length := by
  induction l with
  | nil => rfl
  | cons v vs ih => simp [List.flatten, encodeInt32_length, ih]; ring

lemma flatten_WPoint_write_length (l : List WPoint) :
    ((l.map WPoint.write).flatten).length = 16 * l.length := by
  induction l with
  | nil => rfl
  | cons q qs ih => simp [List.flatten, WPoint_write_length, ih]; ring

lemma decodeInt32s_flatten :
    ∀ (l : List Int), (∀ v ∈ l, -2147483648 ≤ v ∧ v < 2147483648) →
      decodeInt32s l.length ((l.map encodeInt32).flatten) = l := by
  intro l
  induction l with
  | nil => intro _; rfl
  | cons v vs ih =>
    intro hrng
    have h4 : (encodeInt32 v).length = 4 := encodeInt32_length v
    have hv := hrng v (List.mem_cons_self v vs)
    simp only [List.map_cons, List.flatten_cons, List.length_cons, decodeInt32s,
      List.take_left' h4, List.drop_left' h4,
      decodeInt32_encodeInt32 hv.1 hv.2,
      ih (fun w hw => hrng w (List.mem_cons_of_mem v hw))]

lemma decodeWPoints_flatten :
    ∀ (l : List WPoint), (∀ q ∈ l, q.X < 2 ^ 64 ∧ q.Y < 2 ^ 64) →
      decodeWPoints l.length ((l.map WPoint.write).flatten) = l := by
  intro l
  induction l with
  | nil => intro _; rfl
  | cons q qs ih =>
    intro hrng
    have h16 : (WPoint.write q).length = 16 := WPoint_write_length q
    have hq := hrng q (List.mem_cons_self q qs)
    simp only [List.map_cons, List.flatten_cons, List.length_cons, decodeWPoints,
      List.take_left' h16, List.drop_left' h16,
      decodeWPoint_write hq.1 hq.2,
      ih (fun w hw => hrng w (List.mem_cons_of_mem q hw))]

lemma WPolyLine_read_write (init : WPolyLine) {p : WPolyLine} (h : ValidWPolyLine p) :
    WPolyLine.read init (WPolyLine.write p) = some (p, []) := by
  obtain ⟨bx, np, nq, parts, points⟩ := p
  obtain ⟨hb1, hb2, hb3, hb4, hnp, hnq, hlp, hlq, hparts, hpoints⟩ := h
  simp only at hb1 hb2 hb3 hb4 hnp hnq hlp hlq hparts hpoints
  have hnp0 : (0 : Int) ≤ np := by omega
  have hnq0 : (0 : Int) ≤ nq := by omega
  have hpc : np.toNat = parts.length := by omega
  have hqc : nq.toNat = points.length := by omega
  have hs : WPolyLine.write (WPolyLine.mk bx np nq parts points)
      = WBox.write bx ++ (encodeInt32 np ++ (encodeInt32 nq ++
          ((parts.map encodeInt32).flatten ++ (points.map WPoint.write).flatten))) := by
    simp [WPolyLine.write, List.append_assoc]
  rw [hs]
  simp only [WPolyLine.read]
  rw [readField_append _ _ _ _ (WBox_write_length bx)]
  simp only
  rw [readField_append _ _ _ _ (encodeInt32_length np)]
  simp only
  rw [readField_append _ _ _ _ (encodeInt32_length nq)]
  simp only
  rw [decodeInt32_encodeInt32 (by omega) hnp, decodeInt32_encodeInt32 (by omega) hnq]
  rw [if_neg (by omega)]
  rw [readField_append _ _ _ _
    (by rw [flatten_encodeInt32_length, hpc] :
      ((parts.map encodeInt32).flatten).length = 4 * np.toNat)]
  simp only
  rw [readField_exact _ _ _
    (by rw [flatten_WPoint_write_length, hqc] :
      ((points.map WPoint.write).flatten).length = 16 * nq.toNat)]
  simp only
  rw [hpc, hqc, decodeInt32s_flatten parts hparts, decodeWPoints_flatten points hpoints,
    decodeWBox_write hb1 hb2 hb3 hb4]

lemma WPolygon_read_write (init : WPolygon) {p : WPolygon} (h : ValidWPolygon p) :
    WPolygon.read init (WPolygon.write p) = some (p, []) := by
  obtain ⟨bx, np, nq, parts, points⟩ := p
  obtain ⟨hb1, hb2, hb3, hb4, hnp, hnq, hlp, hlq, hparts, hpoints⟩ := h
  simp only at hb1 hb2 hb3 hb4 hnp hnq hlp hlq hparts hpoints
  have hnp0 : (0 : Int) ≤ np := by omega
  have hnq0 : (0 : Int) ≤ nq := by omega
  have hpc : np.toNat = parts.length := by omega
  have hqc : nq.toNat = points.length := by omega
  have hs : WPolygon.write (WPolygon.mk bx np nq parts points)
      = WBox.write bx ++ (encodeInt32 np ++ (encodeInt32 nq ++
          ((parts.map encodeInt32).flatten ++ (points.map WPoint.write).flatten))) := by
    simp [WPolygon.write, List.append_assoc]
  rw [hs]
  simp only [WPolygon.read]
  rw [readField_append _ _ _ _ (WBox_write_length bx)]
  simp only
  rw [readField_append _ _ _ _ (encodeInt32_length np)]
  simp only
  rw [readField_append _ _ _ _ (encodeInt32_length nq)]
  simp only
  rw [decodeInt32_encodeInt32 (by omega) hnp, decodeInt32_encodeInt32 (by omega) hnq]
  rw [if_neg (by omega)]
  rw [readField_append _ _ _ _
    (by rw [flatten_encodeInt32_length, hpc] :
      ((parts.map encodeInt32).flatten).length = 4 * np.toNat)]
  simp only
  rw [readField_exact _ _ _
    (by rw [flatten_WPoint_write_length, hqc] :
      ((points.map WPoint.write).flatten).length = 16 * nq.toNat)]
  simp only
  rw [hpc, hqc, decodeInt32s_flatten parts hparts, decodeWPoints_flatten points hpoints,
    decodeWBox_write hb1 hb2 hb3 hb4]

lemma WPoint_read_write (init : WPoint) {q : WPoint} (hx : q.X < 2 ^ 64) (hy : q.Y < 2 ^ 64) :
    WPoint.read init (WPoint.write q) = (q, []) := by
  rw [WPoint.read, readField_exact _ _ _ (WPoint_write_length q), decodeWPoint_write hx hy]

/-- Reading `k` int32 array elements from an exhausted source: for `k = 0`
the read trivially succeeds with the empty array, otherwise it fails and the
zero-filled `make` allocation is kept; either way the error is discarded. -/
lemma parts_read_empty (k : Nat) :
    readField (4 * k) (decodeInt32s k) (List.replicate k (0 : Int)) [] =
      (List.replicate k 0, []) := by
  rcases Nat.eq_zero_or_pos k with rfl | hpos
  · rw [readField_exact _ _ _ (by norm_num : ([] : List Nat).length = 4 * 0)]
    rfl
  · rw [readField_short _ _ _ (by simpa using by omega : ([] : List Nat).length < 4 * k)]

/-- Reading `k` Point array elements from an exhausted source. -/
lemma points_read_empty (k : Nat) :
    readField (16 * k) (decodeWPoints k) (List.replicate k (WPoint.mk 0 0)) [] =
      (List.replicate k (WPoint.mk 0 0), []) := by
  rcases Nat.eq_zero_or_pos k with rfl | hpos
  · rw [readField_exact _ _ _ (by norm_num : ([] : List Nat).length = 16 * 0)]
    rfl
  · rw [readField_short _ _ _ (by simpa using by omega : ([] : List Nat).length < 16 * k)]

/-- On a source shorter than the leading 32-byte Box, every field read of
`PolyLine.read` fails, all errors are discarded, and the zero receiver comes
back unchanged except for the freshly allocated empty arrays. -/
lemma WPolyLine_read_short (s : List Nat) (h : s.length < 32) :
    WPolyLine.read zeroWPolyLine s = some (zeroWPolyLine, []) := by
  simp only [WPolyLine.read, zeroWPolyLine]
  rw [readField_short _ _ _ (by omega : s.length < 32)]
  decide

lemma WPolygon_read_short (s : List Nat) (h : s.length < 32) :
    WPolygon.read zeroWPolygon s = some (zeroWPolygon, []) := by
  simp only [WPolygon.read, zeroWPolygon]
  rw [readField_short _ _ _ (by omega : s.length < 32)]
  decide

/-- Decoding a PolyLine record truncated right after `NumPoints` (the Box and
both counts arrive, no array bytes do): the array reads fail, the errors are
discarded, and the freshly `make`-allocated zero-filled arrays are returned. -/
lemma WPolyLine_read_truncated {bx : WBox} {np nq : Int}
    (hb1 : bx.MinX < 2 ^ 64) (hb2 : bx.MinY < 2 ^ 64)
    (hb3 : bx.MaxX < 2 ^ 64) (hb4 : bx.MaxY < 2 ^ 64)
    (hnp0 : 0 ≤ np) (hnp : np < 2147483648) (hnq0 : 0 ≤ nq) (hnq : nq < 2147483648) :
    WPolyLine.read zeroWPolyLine (WBox.write bx ++ encodeInt32 np ++ encodeInt32 nq)
      = some (WPolyLine.mk bx np nq (List.replicate np.toNat 0)
          (List.replicate nq.toNat (WPoint.mk 0 0)), []) := by
  have hs : WBox.write bx ++ encodeInt32 np ++ encodeInt32 nq
      = WBox.write bx ++ (encodeInt32 np ++ encodeInt32 nq) := by
    simp [List.append_assoc]
  rw [hs]
  simp only [WPolyLine.read]
  rw [readField_append _ _ _ _ (WBox_write_length bx)]
  simp only
  rw [readField_append _ _ _ _ (encodeInt32_length np)]
  simp only
  rw [readField_exact _ _ _ (encodeInt32_length nq)]
  simp only
  rw [decodeInt32_encodeInt32 (by omega) hnp, decodeInt32_encodeInt32 (by omega) hnq]
  rw [if_neg (by omega)]
  rw [parts_read_empty, points_read_empty]
  rw [decodeWBox_write hb1 hb2 hb3 hb4]

/-! ## DBF Field descriptor model -/

namespace goshp

/-- `Field` from the source: the DBF column descriptor (the name `Field` is
taken by Mathlib, hence the `goshp` namespace of the Go package).  The
fixed-size byte buffers `Name [11]byte`, `Addr [4]byte` and `Padding [14]byte`
are byte lists of those lengths. -/
structure Field where
  Name : List Nat
  Fieldtype : Nat
  Addr : List Nat
  Size : Nat
  Precision : Nat
  Padding : List Nat
deriving DecidableEq, Repr

end goshp

/-- Go's builtin `copy(dst, src)` for byte slices: copies `min(len dst, len
src)` bytes into the front of `dst`, leaving the tail of `dst` unchanged. -/
def goCopy (dst src : List Nat) : List Nat :=
  src.take dst.length ++ dst.drop src.length

namespace goshp

/-- `func StringField(name string, length uint8) Field` from the source: a
struct literal setting `Fieldtype: 'C'` and `Size: length` (all other fields
zero), then `copy(field.Name[:], []byte(name))`. -/
def StringField (name : List Nat) (length : Nat) : Field :=
  { Name := goCopy (List.replicate 11 0) name
    Fieldtype := 67
    Addr := List.replicate 4 0
    Size := length
    Precision := 0
    Padding := List.replicate 14 0 }

/-- `func NumberField(name string, length uint8) Field` from the source. -/
def NumberField (name : List Nat) (length : Nat) : Field :=
  { Name := goCopy (List.replicate 11 0) name
    Fieldtype := 78
    Addr := List.replicate 4 0
    Size := length
    Precision := 0
    Padding := List.replicate 14 0 }

/-- `func FloatField(name string, length uint8, precision uint8) Field` from
the source. -/
def FloatField (name : List Nat) (length : Nat) (precision : Nat) : Field :=
  { Name := goCopy (List.replicate 11 0) name
    Fieldtype := 70
    Addr := List.replicate 4 0
    Size := length
    Precision := precision
    Padding := List.replicate 14 0 }

/-- `func DateField(name string) Field` from the source: fixed size 8. -/
def DateField (name : List Nat) : Field :=
  { Name := goCopy (List.replicate 11 0) name
    Fieldtype := 68
    Addr := List.replicate 4 0
    Size := 8
    Precision := 0
    Padding := List.replicate 14 0 }

end goshp

lemma goCopy_replicate_zero (name : List Nat) :
    goCopy (List.replicate 11 0) name
      = name.take 11 ++ List.replicate (11 - name.length) 0 := by
  unfold goCopy
  rw [List.length_replicate, List.drop_replicate]

instance decValidWPolyLine (p : WPolyLine) : Decidable (ValidWPolyLine p) := by
  unfold ValidWPolyLine
  infer_instance

instance decValidWPolygon (p : WPolygon) : Decidable (ValidWPolygon p) := by
  unfold ValidWPolygon
  infer_instance

lemma readField_eq {α : Type} (n : Nat) (dec : List Nat → α) (cur : α) (s : List Nat) :
    readField n dec cur s =
      if n ≤ s.length then (dec (s.take n), s.drop n) else (cur, []) := by
  by_cases h : n ≤ s.length
  · rw [if_pos h]
    simp [readField, readFull, if_pos h]
  · rw [if_neg h]
    simp [readField, readFull, if_neg h]

lemma readField_int32s_fst_length (k : Nat) (cur : List Int) (s : List Nat)
    (hcur : cur.length = k) :
    ((readField (4 * k) (decodeInt32s k) cur s).1).length = k := by
  rw [readField_eq]
  split
  · simp [decodeInt32s_length]
  · simpa using hcur

lemma readField_wpoints_fst_length (k : Nat) (cur : List WPoint) (s : List Nat)
    (hcur : cur.length = k) :
    ((readField (16 * k) (decodeWPoints k) cur s).1).length = k := by
  rw [readField_eq]
  split
  · simp [decodeWPoints_length]
  · simpa using hcur

/-! ## Claim theorems -/

/-- Claim C1: for every geometry variant (Null, Point, PolyLine, Polygon) and
every valid value x of that variant (in particular `NumParts = len Parts` and
`NumPoints = len Points`, all coordinates 64-bit patterns, all int32 fields in
range), decoding the bytes produced by encoding x yields x back bit-for-bit,
consuming the entire encoding. -/
theorem C1_decode_encode_roundtrip :
    (∀ n : WNull, WNull.read (WNull.write n) = (n, [])) ∧
    (∀ q : WPoint, q.X < 2 ^ 64 → q.Y < 2 ^ 64 →
      WPoint.read zeroWPoint (WPoint.write q) = (q, [])) ∧
    (∀ p : WPolyLine, ValidWPolyLine p →
      WPolyLine.read zeroWPolyLine (WPolyLine.write p) = some (p, [])) ∧
    (∀ g : WPolygon, ValidWPolygon g →
      WPolygon.read zeroWPolygon (WPolygon.write g) = some (g, [])) :=
  ⟨fun _ => rfl,
   fun _ hx hy => WPoint_read_write zeroWPoint hx hy,
   fun _ h => WPolyLine_read_write zeroWPolyLine h,
   fun _ h => WPolygon_read_write zeroWPolygon h⟩

/-- Witness for C1 at concrete values of each fallible variant. -/
theorem C1_decode_encode_roundtrip_witness :
    WPoint.read zeroWPoint (WPoint.write (WPoint.mk 5 6)) = (WPoint.mk 5 6, []) ∧
    WPolyLine.read zeroWPolyLine
        (WPolyLine.write (WPolyLine.mk (WBox.mk 1 2 3 4) 1 2 [7] [WPoint.mk 5 6, WPoint.mk 9 8])) =
      some (WPolyLine.mk (WBox.mk 1 2 3 4) 1 2 [7] [WPoint.mk 5 6, WPoint.mk 9 8], []) ∧
    WPolygon.read zeroWPolygon
        (WPolygon.write (WPolygon.mk (WBox.mk 1 2 3 4) 0 1 [] [WPoint.mk 5 6])) =
      some (WPolygon.mk (WBox.mk 1 2 3 4) 0 1 [] [WPoint.mk 5 6], []) :=
  ⟨C1_decode_encode_roundtrip.2.1 (WPoint.mk 5 6) (by decide) (by decide),
   C1_decode_encode_roundtrip.2.2.1 _ (by decide),
   C1_decode_encode_roundtrip.2.2.2 _ (by decide)⟩

/-- Claim C2 counterexample: decoding a PolyLine from a source truncated right
after NumPoints (Box of zeros, NumParts = 0, NumPoints = 2, no array bytes
remaining) does NOT fail with a TruncatedInput error — the read has no error
channel at all — and it DOES return normally with a zero-filled partial
`Points` array of the declared length 2. -/
theorem C2_truncated_counterexample :
    WPolyLine.read zeroWPolyLine (List.replicate 32 0 ++ [0, 0, 0, 0, 2, 0, 0, 0]) =
      some (WPolyLine.mk (WBox.mk 0 0 0 0) 0 2 [] [WPoint.mk 0 0, WPoint.mk 0 0], []) := by
  decide

/-- Claim C2 (amended): for every PolyLine decode whose source is truncated
after `NumPoints` but before the array bytes (here: Box and both non-negative
in-range counts arrive, nothing further), the decode reports no error to the
caller — the underlying read errors are discarded — and it returns normally
with `Parts` and `Points` allocated at the declared lengths and zero-filled. -/
theorem C2_truncated_decode_returns_zero_filled {bx : WBox} {np nq : Int}
    (hb1 : bx.MinX < 2 ^ 64) (hb2 : bx.MinY < 2 ^ 64)
    (hb3 : bx.MaxX < 2 ^ 64) (hb4 : bx.MaxY < 2 ^ 64)
    (hnp0 : 0 ≤ np) (hnp : np < 2147483648) (hnq0 : 0 ≤ nq) (hnq : nq < 2147483648) :
    WPolyLine.read zeroWPolyLine (WBox.write bx ++ encodeInt32 np ++ encodeInt32 nq)
      = some (WPolyLine.mk bx np nq (List.replicate np.toNat 0)
          (List.replicate nq.toNat (WPoint.mk 0 0)), []) :=
  WPolyLine_read_truncated hb1 hb2 hb3 hb4 hnp0 hnp hnq0 hnq

/-- Witness for the amended C2 at a concrete truncated input. -/
theorem C2_truncated_decode_returns_zero_filled_witness :
    WPolyLine.read zeroWPolyLine
        (WBox.write (WBox.mk 1 2 3 4) ++ encodeInt32 1 ++ encodeInt32 1)
      = some (WPolyLine.mk (WBox.mk 1 2 3 4) 1 1 (List.replicate 1 0)
          (List.replicate 1 (WPoint.mk 0 0)), []) :=
  C2_truncated_decode_returns_zero_filled (by decide) (by decide) (by decide) (by decide)
    (by decide) (by decide) (by decide) (by decide)

/-- Claim C3: for every choice of Box, NumParts, NumPoints, Parts and Points
values, a Polygon and a PolyLine constructed with those identical field values
encode to byte-identical output. -/
theorem C3_polygon_polyline_same_encoding :
    ∀ (b : WBox) (np nq : Int) (parts : List Int) (points : List WPoint),
      WPolyLine.write (WPolyLine.mk b np nq parts points) =
        WPolygon.write (WPolygon.mk b np nq parts points) :=
  fun _ _ _ _ _ => rfl

/-- Claim C4: for every PolyLine and Polygon value, `BBox()` equals the box
computed by aggregating over the `Points` slice (`BBoxFromPoints`), regardless
of the stored `Box` field; two values differing only in the stored `Box` field
have equal `BBox()` results. -/
theorem C4_bbox_ignores_stored_box :
    (∀ p : PolyLine, p.BBox = BBoxFromPoints p.Points) ∧
    (∀ (p : PolyLine) (b : Box),
      (PolyLine.mk b p.NumParts p.NumPoints p.Parts p.Points).BBox = p.BBox) ∧
    (∀ g : Polygon, g.BBox = BBoxFromPoints g.Points) ∧
    (∀ (g : Polygon) (b : Box),
      (Polygon.mk b g.NumParts g.NumPoints g.Parts g.Points).BBox = g.BBox) :=
  ⟨fun _ => rfl, fun _ _ => rfl, fun _ => rfl, fun _ _ => rfl⟩

/-- Claim C5: for every non-empty point sequence, `BBoxFromPoints` returns the
minimal axis-aligned covering box (it covers every point, and any box covering
every point contains it); and at the spec's example,
`BBoxFromPoints [{1,2}, {-1,5}, {3,0}] = {MinX := -1, MinY := 0, MaxX := 3, MaxY := 5}`. -/
theorem C5_bbox_minimal_covering :
    (∀ ps : List Point, ps ≠ [] →
      (∀ p ∈ ps, covers (BBoxFromPoints ps) p) ∧
      (∀ c : Box, (∀ p ∈ ps, covers c p) →
        c.MinX ≤ (BBoxFromPoints ps).MinX ∧ c.MinY ≤ (BBoxFromPoints ps).MinY ∧
        (BBoxFromPoints ps).MaxX ≤ c.MaxX ∧ (BBoxFromPoints ps).MaxY ≤ c.MaxY)) ∧
    BBoxFromPoints [Point.mk 1 2, Point.mk (-1) 5, Point.mk 3 0] = Box.mk (-1) 0 3 5 := by
  constructor
  · intro ps hne
    match ps, hne with
    | p :: rest, _ =>
      constructor
      · intro q hq
        rcases List.mem_cons.mp hq with rfl | hmem
        · have h2 := foldl_bboxStep_widens rest (Box.mk q.X q.Y q.X q.Y)
          simp only [BBoxFromPoints, covers] at h2 ⊢
          exact ⟨h2.1, h2.2.1, h2.2.2.1, h2.2.2.2⟩
        · exact foldl_bboxStep_covers rest _ q hmem
      · intro c hc
        have hp : covers c p := hc p (List.mem_cons_self p rest)
        simp only [covers] at hp
        exact foldl_bboxStep_minimal rest (Box.mk p.X p.Y p.X p.Y) c
          (fun q hq => hc q (List.mem_cons_of_mem p hq)) hp.1 hp.2.1 hp.2.2.1 hp.2.2.2
  · decide

/-- Witness for C5 at the spec's example list: the computed box covers the
first example point, and the tight bounds hold against the covering box given
by the example output itself. -/
theorem C5_bbox_minimal_covering_witness :
    covers (BBoxFromPoints [Point.mk 1 2, Point.mk (-1) 5, Point.mk 3 0]) (Point.mk 1 2) :=
  (C5_bbox_minimal_covering.1 [Point.mk 1 2, Point.mk (-1) 5, Point.mk 3 0]
      (by decide)).1 (Point.mk 1 2) (by decide)

/-- Claim C6: `BBoxFromPoints` applied to an empty point sequence returns the
zero-value box `{0, 0, 0, 0}`. -/
theorem C6_empty_points_zero_box : BBoxFromPoints [] = Box.mk 0 0 0 0 :=
  rfl

/-- Claim C7: `Box.Extend` is idempotent (extending by the same box twice
yields the same result as once), a no-op on contained boxes, and it never
narrows any bound. -/
theorem C7_extend_idempotent_no_narrowing :
    (∀ a b : Box, (a.Extend b).Extend b = a.Extend b) ∧
    (∀ a b : Box,
      a.MinX ≤ b.MinX → a.MinY ≤ b.MinY → b.MaxX ≤ a.MaxX → b.MaxY ≤ a.MaxY →
      a.Extend b = a) ∧
    (∀ a b : Box,
      (a.Extend b).MinX ≤ a.MinX ∧ (a.Extend b).MinY ≤ a.MinY ∧
      a.MaxX ≤ (a.Extend b).MaxX ∧ a.MaxY ≤ (a.Extend b).MaxY) := by
  refine ⟨?_, ?_, ?_⟩
  · intro a b
    obtain ⟨a1, a2, a3, a4⟩ := a
    obtain ⟨b1, b2, b3, b4⟩ := b
    simp only [Box.Extend, Box.mk.injEq]
    refine ⟨?_, ?_, ?_, ?_⟩ <;> split_ifs <;> omega
  · intro a b h1 h2 h3 h4
    obtain ⟨a1, a2, a3, a4⟩ := a
    obtain ⟨b1, b2, b3, b4⟩ := b
    simp only [Box.Extend, Box.mk.injEq]
    simp only at h1 h2 h3 h4
    refine ⟨?_, ?_, ?_, ?_⟩ <;> split_ifs <;> omega
  · intro a b
    obtain ⟨a1, a2, a3, a4⟩ := a
    obtain ⟨b1, b2, b3, b4⟩ := b
    simp only [Box.Extend]
    refine ⟨?_, ?_, ?_, ?_⟩ <;> split_ifs <;> omega

/-- Witness for C7: the contained-box no-op at concrete boxes. -/
theorem C7_extend_idempotent_no_narrowing_witness :
    (Box.mk 0 0 10 10).Extend (Box.mk 1 1 5 5) = Box.mk 0 0 10 10 :=
  C7_extend_idempotent_no_narrowing.2.1 (Box.mk 0 0 10 10) (Box.mk 1 1 5 5)
    (by decide) (by decide) (by decide) (by decide)

/-- Claim C8: every PolyLine or Polygon value produced by `read` satisfies
`len Parts = NumParts` and `len Points = NumPoints`, the arrays having been
allocated to exactly the decoded counts. -/
theorem C8_decoded_array_lengths :
    (∀ (init : WPolyLine) (s : List Nat) (p : WPolyLine) (rest : List Nat),
      WPolyLine.read init s = some (p, rest) →
        (p.Parts.length : Int) = p.NumParts ∧ (p.Points.length : Int) = p.NumPoints) ∧
    (∀ (init : WPolygon) (s : List Nat) (p : WPolygon) (rest : List Nat),
      WPolygon.read init s = some (p, rest) →
        (p.Parts.length : Int) = p.NumParts ∧ (p.Points.length : Int) = p.NumPoints) := by
  constructor
  · intro init s p rest h
    simp only [WPolyLine.read] at h
    split at h
    · exact absurd h (by simp)
    · rename_i hcond
      push_neg at hcond
      rw [Option.some_inj, Prod.mk.injEq] at h
      obtain ⟨hp, -⟩ := h
      subst hp
      simp only
      constructor
      · rw [readField_int32s_fst_length _ _ _ (by simp)]
        omega
      · rw [readField_wpoints_fst_length _ _ _ (by simp)]
        omega
  · intro init s p rest h
    simp only [WPolygon.read] at h
    split at h
    · exact absurd h (by simp)
    · rename_i hcond
      push_neg at hcond
      rw [Option.some_inj, Prod.mk.injEq] at h
      obtain ⟨hp, -⟩ := h
      subst hp
      simp only
      constructor
      · rw [readField_int32s_fst_length _ _ _ (by simp)]
        omega
      · rw [readField_wpoints_fst_length _ _ _ (by simp)]
        omega

/-- Witness for C8 at a concrete decode (counts 1 and 1, arrays truncated, so
the zero-filled allocations of exactly the decoded lengths come back). -/
theorem C8_decoded_array_lengths_witness :
    (((WPolyLine.mk (WBox.mk 0 0 0 0) 1 1 [0] [WPoint.mk 0 0]).Parts.length : Int)
        = (WPolyLine.mk (WBox.mk 0 0 0 0) 1 1 [0] [WPoint.mk 0 0]).NumParts) ∧
    (((WPolyLine.mk (WBox.mk 0 0 0 0) 1 1 [0] [WPoint.mk 0 0]).Points.length : Int)
        = (WPolyLine.mk (WBox.mk 0 0 0 0) 1 1 [0] [WPoint.mk 0 0]).NumPoints) :=
  C8_decoded_array_lengths.1 zeroWPolyLine
    (List.replicate 32 0 ++ [1, 0, 0, 0, 1, 0, 0, 0])
    (WPolyLine.mk (WBox.mk 0 0 0 0) 1 1 [0] [WPoint.mk 0 0]) [] (by decide)

/-- Claim C9: `StringField name length` returns a Field with Fieldtype `'C'`
(67) and Size `length`, whose Name buffer holds the name's bytes
left-justified and zero-padded to 11 bytes, silently truncated to the first
11 bytes when longer, with the reserved `Addr` and `Padding` regions (and
`Precision`) zero-filled; in particular `StringField "City" 50` yields
Fieldtype `'C'`, Size 50, and Name "City" followed by zero padding. -/
theorem C9_string_field_layout :
    (∀ (name : List Nat) (length : Nat),
      (goshp.StringField name length).Fieldtype = 67 ∧
      (goshp.StringField name length).Size = length ∧
      (goshp.StringField name length).Name
        = name.take 11 ++ List.replicate (11 - name.length) 0 ∧
      (goshp.StringField name length).Name.length = 11 ∧
      (goshp.StringField name length).Addr = List.replicate 4 0 ∧
      (goshp.StringField name length).Precision = 0 ∧
      (goshp.StringField name length).Padding = List.replicate 14 0) ∧
    goshp.StringField [67, 105, 116, 121] 50
      = goshp.Field.mk [67, 105, 116, 121, 0, 0, 0, 0, 0, 0, 0] 67
          (List.replicate 4 0) 50 0 (List.replicate 14 0) := by
  constructor
  · intro name length
    refine ⟨rfl, rfl, goCopy_replicate_zero name, ?_, rfl, rfl, rfl⟩
    show (goCopy (List.replicate 11 0) name).length = 11
    rw [goCopy_replicate_zero]
    simp only [List.length_append, List.length_take, List.length_replicate]
    omega
  · decide

/-- Claim C10: the geometry `read`/`write` methods expose no error channel:
every `binary.Read` failure (including end-of-input) is discarded and the
call returns normally — for `Null` on any source, and for `Point`, `PolyLine`
and `Polygon` on any source too short for even the first fixed-size field,
the zero receiver comes back with all unfilled fields at their zero values
(for PolyLine/Polygon the arrays are the `make`-allocated empty ones), with
no failure reported to the caller. -/
theorem C10_reads_discard_errors :
    (∀ s : List Nat, WNull.read s = (WNull.mk, s)) ∧
    (∀ s : List Nat, s.length < 16 → WPoint.read zeroWPoint s = (zeroWPoint, [])) ∧
    (∀ s : List Nat, s.length < 32 →
      WPolyLine.read zeroWPolyLine s = some (zeroWPolyLine, [])) ∧
    (∀ s : List Nat, s.length < 32 →
      WPolygon.read zeroWPolygon s = some (zeroWPolygon, [])) := by
  refine ⟨fun _ => rfl, ?_, WPolyLine_read_short, WPolygon_read_short⟩
  intro s h
  rw [WPoint.read, readField_short _ _ _ h]

/-- Witness for C10 at concrete short sources. -/
theorem C10_reads_discard_errors_witness :
    WPoint.read zeroWPoint [1, 2, 3] = (zeroWPoint, []) ∧
    WPolyLine.read zeroWPolyLine [1, 2, 3] = some (zeroWPolyLine, []) ∧
    WPolygon.read zeroWPolygon [] = some (zeroWPolygon, []) :=
  ⟨C10_reads_discard_errors.2.1 [1, 2, 3] (by decide),
   C10_reads_discard_errors.2.2.1 [1, 2, 3] (by decide),
   C10_reads_discard_errors.2.2.2 [] (by decide)⟩
